import Mathlib

/-!
Shallow embedding of the Visual Regression Comparison Engine of
`src/test_case_generation/visual_regression.py` (class `VisualRegressionEngine`),
together with theorems settling the claims C1..C10 about it.

Modelling conventions:
* A canonical color image (the value of `cv2.imread` followed by
  `cv2.resize(img, (224, 224))`) is an `Img`: a width, a height and a flat
  row-major list of three-channel pixels.  Channel values are naturals; a
  decodable 8-bit image satisfies `Img.valid` (every channel value is at most
  255 and the pixel list has exactly `w * h` entries).
* `cv2.imread` returning `None` for an undecodable file is modelled by the
  comparison receiving `Option Img` inputs (`none` = decode failure), which is
  the exception path of `_compare_images`.
* Floating point arithmetic is modelled by exact rational arithmetic (`ℚ`).
  The `DBL_EPSILON` guard of `cv2.compareHist` is modelled as a test against 0,
  and `sqrt` by `Rat.sqrt`, which is exact on the perfect squares that the
  proofs below evaluate it at.
* `cv2.cvtColor` with `COLOR_BGR2GRAY` / `COLOR_RGB2GRAY` is modelled by
  OpenCV's 8-bit fixed-point formula `(4899*R + 9617*G + 1868*B + 8192) >> 14`.
* External OpenCV algorithms whose internals the repository does not contain
  are parameters of the embedding: `canny` (for `cv2.Canny(gray, 50, 150)`),
  `findContours` (for `cv2.findContours(diff, RETR_EXTERNAL,
  CHAIN_APPROX_SIMPLE)`, returning the contours of the nonzero mask of its
  input) and `orb` (for `cv2.ORB_create().detectAndCompute`, returning `none`
  when no descriptors are found).  `cv2.BFMatcher(NORM_HAMMING,
  crossCheck=True).match` is modelled concretely as mutual-nearest-neighbour
  matching with lowest-index tie-breaking, `cv2.contourArea` by the shoelace
  polygon area and `cv2.boundingRect` by the min/max rectangle of the points.
* The `description` strings carry the fixed text of the source without the
  `:.3f`-formatted numeric suffix; no claim depends on that suffix.
-/

set_option maxRecDepth 100000

namespace VisualRegression

/-- A three-channel pixel; `c0`, `c1`, `c2` are the channels in the storage
order of the enclosing image (BGR for images coming from `cv2.imread`, RGB
after `cv2.cvtColor(img, COLOR_BGR2RGB)`). -/
structure Px where
  c0 : ℕ
  c1 : ℕ
  c2 : ℕ
  deriving DecidableEq

/-- A canonical color image: dimensions plus a flat row-major pixel list. -/
structure Img where
  w : ℕ
  h : ℕ
  pix : List Px
  deriving DecidableEq

/-- A single-channel (grayscale) image. -/
structure GrayImg where
  w : ℕ
  h : ℕ
  pix : List ℕ
  deriving DecidableEq

/-- A pixel of a decoded 8-bit image: every channel value is at most 255. -/
def Px.valid (p : Px) : Prop := p.c0 ≤ 255 ∧ p.c1 ≤ 255 ∧ p.c2 ≤ 255

/-- A well-formed decoded 8-bit color image. -/
def Img.valid (a : Img) : Prop :=
  a.pix.length = a.w * a.h ∧ ∀ p ∈ a.pix, p.valid

/-- A well-formed 8-bit grayscale image. -/
def GrayImg.valid (g : GrayImg) : Prop :=
  g.pix.length = g.w * g.h ∧ ∀ v ∈ g.pix, v ≤ 255

/-- Channel-wise `cv2.absdiff` of two color images. -/
def absdiffC (a b : Img) : Img :=
  ⟨a.w, a.h, List.zipWith (fun p q : Px =>
    ⟨Nat.dist p.c0 q.c0, Nat.dist p.c1 q.c1, Nat.dist p.c2 q.c2⟩) a.pix b.pix⟩

/-- `cv2.absdiff` of two grayscale images. -/
def absdiffG (a b : GrayImg) : GrayImg :=
  ⟨a.w, a.h, List.zipWith Nat.dist a.pix b.pix⟩

/-- OpenCV 8-bit fixed-point luma of a BGR pixel
(`Y = (1868*B + 9617*G + 4899*R + 8192) >> 14`). -/
def grayOfBGR (p : Px) : ℕ := (1868 * p.c0 + 9617 * p.c1 + 4899 * p.c2 + 8192) / 16384

/-- OpenCV 8-bit fixed-point luma of an RGB pixel. -/
def grayOfRGB (p : Px) : ℕ := (4899 * p.c0 + 9617 * p.c1 + 1868 * p.c2 + 8192) / 16384

/-- `cv2.cvtColor(img, COLOR_BGR2GRAY)`. -/
def cvtBGR2GRAY (a : Img) : GrayImg := ⟨a.w, a.h, a.pix.map grayOfBGR⟩

/-- `cv2.cvtColor(img, COLOR_RGB2GRAY)`. -/
def cvtRGB2GRAY (a : Img) : GrayImg := ⟨a.w, a.h, a.pix.map grayOfRGB⟩

/-- `cv2.cvtColor(img, COLOR_BGR2RGB)`: swap the first and third channel. -/
def cvtBGR2RGB (a : Img) : Img := ⟨a.w, a.h, a.pix.map fun p => ⟨p.c2, p.c1, p.c0⟩⟩

/-- `np.mean` over a grayscale image (0 on an empty image, matching the
convention that an empty mean never occurs on decoded canonical images). -/
def GrayImg.mean (g : GrayImg) : ℚ := (g.pix.sum : ℚ) / (g.pix.length : ℚ)

/-- The detected visual difference record (dataclass `VisualDifference`). -/
structure VisualDifference where
  difference_type : String
  confidence : ℚ
  bounding_box : ℕ × ℕ × ℕ × ℕ
  description : String
  severity : String
  suggested_action : String
  deriving DecidableEq

/-- The fixed detector thresholds set in `VisualRegressionEngine.__init__`
(`self.tolerance_thresholds`). -/
structure Thresholds where
  layout : ℚ
  color : ℚ
  content : ℚ
  element : ℚ

/-- The default threshold values from `__init__`. -/
def tolerance_thresholds : Thresholds :=
  { layout := 1/10, color := 1/20, content := 3/20, element := 1/5 }

/-- `VisualRegressionEngine._determine_test_status`, verbatim from the source:
`pass` below 0.05; between 0.05 and 0.15 `fail` when a difference with
severity `critical` is present and `warning` otherwise; `fail` from 0.15 up. -/
def determine_test_status (difference_score : ℚ)
    (differences : List VisualDifference) : String :=
  if difference_score < 5/100 then "pass"
  else if difference_score < 15/100 then
    if (differences.filter fun d => d.severity == "critical").isEmpty then "warning"
    else "fail"
  else "fail"

/-! ### Color detector machinery: `cv2.calcHist` / `cv2.compareHist` -/

/-- Bin index of an 8-bit channel value for `calcHist` with 8 uniform bins
over [0, 256): `v >> 5`. -/
def binOf (v : ℕ) : ℕ := v / 32

/-- Number of pixels of `a` falling into histogram bin `(b0, b1, b2)`
(`cv2.calcHist([img], [0, 1, 2], None, [8, 8, 8], [0, 256]*3)`). -/
def histCount (a : Img) (b0 b1 b2 : ℕ) : ℕ :=
  (a.pix.filter fun p =>
    (binOf p.c0 == b0) && (binOf p.c1 == b1) && (binOf p.c2 == b2)).length

/-- The index set of the 8x8x8 histogram bins. -/
def bins : Finset (ℕ × ℕ × ℕ) :=
  Finset.range 8 ×ˢ Finset.range 8 ×ˢ Finset.range 8

/-- Histogram of `a` as a function on bin triples. -/
def hist (a : Img) (t : ℕ × ℕ × ℕ) : ℕ := histCount a t.1 t.2.1 t.2.2

/-- Sum of all histogram entries of `a` (the `s1`/`s2` accumulator of
OpenCV's `HISTCMP_CORREL`). -/
def histS1 (a : Img) : ℕ := ∑ t ∈ bins, hist a t

/-- Sum of squared histogram entries (the `s11`/`s22` accumulator). -/
def histS11 (a : Img) : ℕ := ∑ t ∈ bins, (hist a t) ^ 2

/-- Sum of products of corresponding histogram entries (the `s12`
accumulator). -/
def histS12 (a b : Img) : ℕ := ∑ t ∈ bins, hist a t * hist b t

/-- `cv2.compareHist(h1, h2, HISTCMP_CORREL)`: the Pearson correlation of the
two flattened histograms over all 512 bins, 1 when the denominator vanishes
(OpenCV's `DBL_EPSILON` guard, modelled exactly at 0).  `Rat.sqrt` is exact on
the perfect-square denominators arising in the proofs below. -/
def compareHistCorrel (a b : Img) : ℚ :=
  let total : ℚ := 512
  let num : ℚ := (histS12 a b : ℚ) - (histS1 a : ℚ) * (histS1 b : ℚ) / total
  let d1 : ℚ := (histS11 a : ℚ) - (histS1 a : ℚ) ^ 2 / total
  let d2 : ℚ := (histS11 b : ℚ) - (histS1 b : ℚ) ^ 2 / total
  if d1 * d2 = 0 then 1 else num / Rat.sqrt (d1 * d2)

/-! ### Content detector machinery: contours -/

/-- An integer point of a contour. -/
structure Pt where
  x : ℕ
  y : ℕ
  deriving DecidableEq

/-- Twice the signed shoelace area of a closed polygon. -/
def shoelace (ps : List Pt) : ℤ :=
  ((ps.zip (ps.rotate 1)).map fun q =>
    (q.1.x : ℤ) * (q.2.y : ℤ) - (q.2.x : ℤ) * (q.1.y : ℤ)).sum

/-- `cv2.contourArea`: absolute shoelace area of the contour polygon. -/
def contourArea (ps : List Pt) : ℚ := (|shoelace ps| : ℚ) / 2

/-- Python's `max(contours, key=cv2.contourArea)`: first contour of maximal
area (`max` keeps the earlier element on ties, updating only on a strictly
greater key). -/
def maxByArea (c : List Pt) (cs : List (List Pt)) : List Pt :=
  cs.foldl (fun best d => if contourArea best < contourArea d then d else best) c

/-- `cv2.boundingRect` of a point list: `(min x, min y, width, height)`. -/
def boundingRect (ps : List Pt) : ℕ × ℕ × ℕ × ℕ :=
  match ps with
  | [] => (0, 0, 0, 0)
  | p :: rest =>
    let xs := (p :: rest).map Pt.x
    let ys := (p :: rest).map Pt.y
    let x0 := xs.foldl min p.x
    let y0 := ys.foldl min p.y
    let x1 := xs.foldl max p.x
    let y1 := ys.foldl max p.y
    (x0, y0, x1 - x0 + 1, y1 - y0 + 1)

/-! ### Element detector machinery: Hamming brute-force matching -/

/-- A binary ORB descriptor, as its list of bits. -/
abbrev Desc := List Bool

/-- Hamming distance between two descriptors (`cv2.NORM_HAMMING`). -/
def hamming (a b : Desc) : ℕ :=
  ((List.zipWith (fun x y : Bool => x != y) a b).filter id).length

/-- Index and distance of the nearest descriptor of `ds` to `d`, scanning left
to right and keeping the earlier index on ties (OpenCV batch distance updates
only on a strictly smaller distance). -/
def bestMatchAux (d : Desc) : List Desc → ℕ → Option (ℕ × ℕ) → Option (ℕ × ℕ)
  | [], _, acc => acc
  | e :: es, i, acc =>
    let dist := hamming d e
    bestMatchAux d es (i + 1)
      (match acc with
       | none => some (i, dist)
       | some (bi, bd) => if dist < bd then some (i, dist) else some (bi, bd))

/-- Nearest-neighbour search of `d` in `ds`. -/
def bestMatch (d : Desc) (ds : List Desc) : Option (ℕ × ℕ) :=
  bestMatchAux d ds 0 none

/-- `cv2.BFMatcher(NORM_HAMMING, crossCheck=True).match(des1, des2)`:
mutual-nearest pairs `(queryIdx, trainIdx, distance)`. -/
def bfMatch (des1 des2 : List Desc) : List (ℕ × ℕ × ℕ) :=
  des1.enum.filterMap fun p =>
    match bestMatch p.2 des2 with
    | none => none
    | some (j, dist) =>
      match des2.get? j with
      | none => none
      | some dj =>
        match bestMatch dj des1 with
        | none => none
        | some (i2, _) => if i2 = p.1 then some (p.1, j, dist) else none

/-! ### The four strategy detectors -/

/-- `VisualRegressionEngine._detect_layout_changes`; `canny` models
`cv2.Canny(gray, 50, 150)`. -/
def detect_layout_changes (canny : GrayImg → GrayImg)
    (baseline current : Img) : Option VisualDifference :=
  let baseline_gray := cvtRGB2GRAY baseline
  let current_gray := cvtRGB2GRAY current
  let baseline_edges := canny baseline_gray
  let current_edges := canny current_gray
  let edge_diff := absdiffG baseline_edges current_edges
  let edge_score := edge_diff.mean / 255
  if tolerance_thresholds.layout < edge_score then
    some { difference_type := "layout"
           confidence := edge_score
           bounding_box := (0, 0, baseline.w, baseline.h)
           description := "Layout changes detected"
           severity := if 3/10 < edge_score then "high" else "medium"
           suggested_action := "Review layout changes and update baseline if intentional" }
  else none

/-- `VisualRegressionEngine._detect_color_changes`. -/
def detect_color_changes (baseline current : Img) : Option VisualDifference :=
  let color_score := compareHistCorrel baseline current
  let color_diff := 1 - color_score
  if tolerance_thresholds.color < color_diff then
    some { difference_type := "color"
           confidence := color_diff
           bounding_box := (0, 0, baseline.w, baseline.h)
           description := "Color changes detected"
           severity := if 1/10 < color_diff then "medium" else "low"
           suggested_action := "Review color scheme changes and update baseline if intentional" }
  else none

/-- `VisualRegressionEngine._detect_content_changes`; `findContours` models
`cv2.findContours(diff, RETR_EXTERNAL, CHAIN_APPROX_SIMPLE)` on the (nonzero
mask of the) grayscale difference image. -/
def detect_content_changes (findContours : GrayImg → List (List Pt))
    (baseline current : Img) : Option VisualDifference :=
  let baseline_gray := cvtRGB2GRAY baseline
  let current_gray := cvtRGB2GRAY current
  let diff := absdiffG baseline_gray current_gray
  let content_score := diff.mean / 255
  if tolerance_thresholds.content < content_score then
    let bounding_box :=
      match findContours diff with
      | [] => (0, 0, baseline.w, baseline.h)
      | c :: cs => boundingRect (maxByArea c cs)
    some { difference_type := "content"
           confidence := content_score
           bounding_box := bounding_box
           description := "Content changes detected"
           severity := if 3/10 < content_score then "high" else "medium"
           suggested_action := "Review content changes and update baseline if intentional" }
  else none

/-- `VisualRegressionEngine._detect_element_changes`; `orb` models
`cv2.ORB_create().detectAndCompute` (returning `none` when no descriptors are
found). -/
def detect_element_changes (orb : GrayImg → Option (List Desc))
    (baseline current : Img) : Option VisualDifference :=
  let baseline_gray := cvtRGB2GRAY baseline
  let current_gray := cvtRGB2GRAY current
  match orb baseline_gray, orb current_gray with
  | some des1, some des2 =>
    let allMatches := (bfMatch des1 des2).mergeSort fun m1 m2 => m1.2.2 ≤ m2.2.2
    let good_matches := allMatches.filter fun m => m.2.2 < 50
    let goodFrac : ℚ :=
      if allMatches.isEmpty then 0
      else (good_matches.length : ℚ) / (allMatches.length : ℚ)
    let element_score := 1 - goodFrac
    if tolerance_thresholds.element < element_score then
      some { difference_type := "element"
             confidence := element_score
             bounding_box := (0, 0, baseline.w, baseline.h)
             description := "Element changes detected"
             severity := if 2/5 < element_score then "high" else "medium"
             suggested_action := "Review element changes and update baseline if intentional" }
    else none
  | _, _ => none

/-- `VisualRegressionEngine._detect_differences`: convert both canonical BGR
images to RGB and run the four detectors in order (layout, color, content,
element), collecting the fired ones.  The third argument (`diff_img` in the
source) is received but never read by any detector. -/
def detect_differences (canny : GrayImg → GrayImg)
    (orb : GrayImg → Option (List Desc))
    (findContours : GrayImg → List (List Pt))
    (baseline_img current_img diff_img : Img) : List VisualDifference :=
  let baseline_rgb := cvtBGR2RGB baseline_img
  let current_rgb := cvtBGR2RGB current_img
  (detect_layout_changes canny baseline_rgb current_rgb).toList ++
  (detect_color_changes baseline_rgb current_rgb).toList ++
  (detect_content_changes findContours baseline_rgb current_rgb).toList ++
  (detect_element_changes orb baseline_rgb current_rgb).toList

/-- `VisualRegressionEngine._compare_images`.  The `Option Img` inputs are the
results of `cv2.imread` followed by the resize to the canonical 224x224 frame
(`none` = the file could not be decoded); the exception handler returning
`(1.0, [])` is the `none` branch.  The `tolerance` parameter is received but
never read, exactly as in the source. -/
def compare_images (canny : GrayImg → GrayImg)
    (orb : GrayImg → Option (List Desc))
    (findContours : GrayImg → List (List Pt))
    (baseline current : Option Img) (tolerance : ℚ) :
    ℚ × List VisualDifference :=
  match baseline, current with
  | some baseline_img, some current_img =>
    let diff := absdiffC baseline_img current_img
    let diff_gray := cvtBGR2GRAY diff
    let difference_score := diff_gray.mean / 255
    (difference_score,
     detect_differences canny orb findContours baseline_img current_img diff)
  | _, _ => (1, [])

/-- Modelled from the spec: the aggregate score as claim C3 words it, the
"mean absolute difference over the full canonical color images", scaled to
[0, 1] by dividing by 255 — i.e. the unweighted mean of the per-channel
absolute differences over every channel of every pixel. -/
def specAggregateScore (a b : Img) : ℚ :=
  ((List.zipWith (fun p q : Px =>
      Nat.dist p.c0 q.c0 + Nat.dist p.c1 q.c1 + Nat.dist p.c2 q.c2) a.pix b.pix).sum : ℚ)
    / (3 * (a.pix.length : ℚ)) / 255

/-! ### Baseline and case registry, statistics reporter -/

/-- The dataclass `VisualTestCase`. -/
structure VisualTestCase where
  test_case_id : String
  element_selector : String
  element_type : String
  baseline_image_path : String
  tolerance : ℚ
  description : String
  created_at : String
  deriving DecidableEq

/-- `VisualRegressionEngine.create_visual_test_case`: `captured_baseline` is
the value returned by `capture_screenshot` (`none` when the capture failed, in
which case the source raises, modelled as `none`).  The stored tolerance is
the fixed default 0.1; the method has no tolerance parameter. -/
def create_visual_test_case (test_case_id element_selector element_type description : String)
    (captured_baseline : Option String) (created_at : String) : Option VisualTestCase :=
  match captured_baseline with
  | none => none
  | some baseline_path =>
    some { test_case_id := test_case_id
           element_selector := element_selector
           element_type := element_type
           baseline_image_path := baseline_path
           tolerance := 1/10
           description := description
           created_at := created_at }

/-- The file name under which `_save_visual_test_result` persists a result
(`f"{result.test_case_id}_result_{timestamp}.json"`). -/
def resultFileName (test_case_id timestamp : String) : String :=
  test_case_id ++ "_result_" ++ timestamp ++ ".json"

/-- Python's `str.endswith(suffix)`, as a character-list suffix test. -/
def pyEndsWith (s suffix : String) : Bool := suffix.data.isSuffixOf s.data

/-- A persisted `.json` file of the baseline directory as
`get_visual_test_statistics` sees it: its file name and the `status` field
obtained by parsing it (`'unknown'` when absent). -/
structure StoredFile where
  name : String
  status : String
  deriving DecidableEq

/-- The statistics dictionary returned by `get_visual_test_statistics`. -/
structure VisualTestStatistics where
  total_test_cases : ℕ
  total_results : ℕ
  pass_count : ℕ
  fail_count : ℕ
  warning_count : ℕ
  pass_rate : ℚ
  deriving DecidableEq

/-- `VisualRegressionEngine.get_visual_test_statistics`: split the `.json`
files of the baseline directory by `f.name.endswith('_result_')`, count the
pass/fail/warning statuses among the result files and report the pass rate
(0 when no results were counted). -/
def get_visual_test_statistics (files : List StoredFile) : VisualTestStatistics :=
  let test_cases := files.filter fun f => !(pyEndsWith f.name "_result_")
  let result_files := files.filter fun f => pyEndsWith f.name "_result_"
  let pass_count := (result_files.filter fun f => f.status == "pass").length
  let fail_count := (result_files.filter fun f => f.status == "fail").length
  let warning_count := (result_files.filter fun f => f.status == "warning").length
  let total_tests := pass_count + fail_count + warning_count
  { total_test_cases := test_cases.length
    total_results := total_tests
    pass_count := pass_count
    fail_count := fail_count
    warning_count := warning_count
    pass_rate := if total_tests > 0 then (pass_count : ℚ) / (total_tests : ℚ) else 0 }

/-- The layout detector's score: mean absolute difference of the two Canny
edge maps, scaled by 255. -/
def layout_score (canny : GrayImg → GrayImg) (baseline current : Img) : ℚ :=
  (absdiffG (canny (cvtRGB2GRAY baseline)) (canny (cvtRGB2GRAY current))).mean / 255

/-- The color detector's score: one minus the histogram correlation. -/
def color_diff_score (baseline current : Img) : ℚ :=
  1 - compareHistCorrel baseline current

/-- The content detector's score: mean absolute difference of the two
grayscale images, scaled by 255. -/
def content_score (baseline current : Img) : ℚ :=
  (absdiffG (cvtRGB2GRAY baseline) (cvtRGB2GRAY current)).mean / 255

end VisualRegression

namespace VisualRegression

/-- Claim C1: the verdict is a pure function of the aggregate score and the
severities in the difference list: score below 0.05 gives `pass`; score in
[0.05, 0.15) gives `fail` exactly when some difference has severity
`critical` and `warning` otherwise; score at or above 0.15 (inclusive
boundary) gives `fail`. -/
theorem C1_verdict (s : ℚ) (ds : List VisualDifference) :
    (s < 5/100 → determine_test_status s ds = "pass") ∧
    (5/100 ≤ s → s < 15/100 →
      ((∃ d ∈ ds, d.severity = "critical") → determine_test_status s ds = "fail") ∧
      ((∀ d ∈ ds, d.severity ≠ "critical") → determine_test_status s ds = "warning")) ∧
    (15/100 ≤ s → determine_test_status s ds = "fail") := by
  refine ⟨fun h => ?_, fun h1 h2 => ⟨fun h3 => ?_, fun h3 => ?_⟩, fun h => ?_⟩
  · simp [determine_test_status, h]
  · obtain ⟨d, hd, hsev⟩ := h3
    have hne : ¬ (ds.filter fun d => d.severity == "critical").isEmpty := by
      simp only [List.isEmpty_iff, List.filter_eq_nil_iff, not_forall]
      exact ⟨d, hd, by simp [hsev]⟩
    simp [determine_test_status, not_lt.mpr h1, h2, hne]
  · have he : (ds.filter fun d => d.severity == "critical").isEmpty := by
      simp only [List.isEmpty_iff, List.filter_eq_nil_iff]
      intro d hd
      simpa using h3 d hd
    simp [determine_test_status, not_lt.mpr h1, h2, he]
  · have h5 : ¬ s < 5/100 := by
      intro hc; exact absurd (lt_of_lt_of_le hc (by norm_num)) (not_lt.mpr h)
    simp [determine_test_status, h5, not_lt.mpr h]

/-- Witness for C1: the verdict theorem evaluated at concrete scores and
difference lists exercising every branch. -/
theorem C1_verdict_witness :
    determine_test_status (1/100) [] = "pass" ∧
    determine_test_status (1/10)
      [⟨"layout", 1/2, (0,0,1,1), "d", "critical", "a"⟩] = "fail" ∧
    determine_test_status (1/10)
      [⟨"layout", 1/2, (0,0,1,1), "d", "medium", "a"⟩] = "warning" ∧
    determine_test_status (15/100) [] = "fail" := by
  refine ⟨(C1_verdict (1/100) []).1 (by norm_num),
    ((C1_verdict (1/10) _).2.1 (by norm_num) (by norm_num)).1
      ⟨_, List.mem_singleton.mpr rfl, rfl⟩,
    ((C1_verdict (1/10) _).2.1 (by norm_num) (by norm_num)).2 ?_,
    (C1_verdict (15/100) []).2.2 (by norm_num)⟩
  intro d hd
  rcases List.mem_singleton.mp hd with rfl
  decide

/-- Claim C2: when an input image cannot be decoded, the comparison does not
propagate the failure but returns the maximal score 1.0 with an empty
difference list, which the verdict rule classifies as `fail`. -/
theorem C2_decode_failsafe (canny : GrayImg → GrayImg)
    (orb : GrayImg → Option (List Desc))
    (findContours : GrayImg → List (List Pt))
    (baseline current : Option Img) (t : ℚ)
    (h : baseline = none ∨ current = none) :
    compare_images canny orb findContours baseline current t = (1, []) ∧
    determine_test_status
      (compare_images canny orb findContours baseline current t).1
      (compare_images canny orb findContours baseline current t).2 = "fail" := by
  have he : compare_images canny orb findContours baseline current t = (1, []) := by
    rcases h with rfl | rfl
    · rfl
    · cases baseline <;> rfl
  refine ⟨he, ?_⟩
  rw [he]
  norm_num [determine_test_status]

/-- Witness for C2: a failed decode of the baseline yields the fail-safe
result and verdict `fail`. -/
theorem C2_decode_failsafe_witness :
    compare_images (fun g => g) (fun _ => none) (fun _ => []) none none 0 = (1, []) ∧
    determine_test_status
      (compare_images (fun g => g) (fun _ => none) (fun _ => []) none none 0).1
      (compare_images (fun g => g) (fun _ => none) (fun _ => []) none none 0).2 = "fail" :=
  C2_decode_failsafe (fun g => g) (fun _ => none) (fun _ => []) none none 0 (Or.inl rfl)

/-- Counterexample to claim C3: for a 1x1 baseline whose only pixel is pure
blue (BGR (255, 0, 0)) against a black current frame, the source computes
`mean(cvtColor(absdiff, BGR2GRAY))/255 = 29/255`, while the unweighted mean
absolute difference over the color images is `(255/3)/255 = 1/3`. -/
theorem C3_counterexample :
    (compare_images (fun g => g) (fun _ => none) (fun _ => [])
        (some ⟨1, 1, [⟨255, 0, 0⟩]⟩) (some ⟨1, 1, [⟨0, 0, 0⟩]⟩) (1/10)).1 ≠
      specAggregateScore ⟨1, 1, [⟨255, 0, 0⟩]⟩ ⟨1, 1, [⟨0, 0, 0⟩]⟩ := by
  have hL : (compare_images (fun g => g) (fun _ => none) (fun _ => [])
      (some ⟨1, 1, [⟨255, 0, 0⟩]⟩) (some ⟨1, 1, [⟨0, 0, 0⟩]⟩) (1/10)).1
      = (cvtBGR2GRAY (absdiffC ⟨1, 1, [⟨255, 0, 0⟩]⟩ ⟨1, 1, [⟨0, 0, 0⟩]⟩)).mean / 255 := rfl
  have hg : cvtBGR2GRAY (absdiffC ⟨1, 1, [⟨255, 0, 0⟩]⟩ ⟨1, 1, [⟨0, 0, 0⟩]⟩)
      = ⟨1, 1, [29]⟩ := by decide
  have hR : specAggregateScore ⟨1, 1, [⟨255, 0, 0⟩]⟩ ⟨1, 1, [⟨0, 0, 0⟩]⟩ = 1/3 := by
    simp only [specAggregateScore]
    norm_num [List.zipWith, Nat.dist]
  rw [hL, hg, hR]
  norm_num [GrayImg.mean]

/-- Claim C3 as amended: the aggregate score equals the mean of the
BGR-to-grayscale conversion (OpenCV's fixed-point weighted sum of the three
channels) of the per-channel absolute-difference image, divided by 255, and it
is computed independently of the four detectors: replacing every
detector-level primitive (edge detector, feature extractor, contour finder)
and the tolerance changes nothing about the score. -/
theorem C3_aggregate_amended (canny canny' : GrayImg → GrayImg)
    (orb orb' : GrayImg → Option (List Desc))
    (findContours findContours' : GrayImg → List (List Pt))
    (b c : Img) (t t' : ℚ) :
    (compare_images canny orb findContours (some b) (some c) t).1
        = (cvtBGR2GRAY (absdiffC b c)).mean / 255 ∧
      (compare_images canny orb findContours (some b) (some c) t).1
        = (compare_images canny' orb' findContours' (some b) (some c) t').1 :=
  ⟨rfl, rfl⟩

/-- Claim C5 names a code bug: result files are persisted under names of the
form `id ++ "_result_" ++ timestamp ++ ".json"`, but the statistics split
selects result files with `endswith('_result_')`, which such a name (ending
in `.json`) never satisfies.  A baseline directory holding exactly one
persisted result with status `pass` therefore yields `pass_count = 0`,
`total_results = 0` and `pass_rate = 0`, where the claim requires a pass
rate of 1; the persisted result is miscounted as a test case instead. -/
theorem C5_statistics_bug :
    ¬ pyEndsWith (resultFileName "TC1" "20240101_000000") "_result_" ∧
    get_visual_test_statistics [⟨resultFileName "TC1" "20240101_000000", "pass"⟩]
      = { total_test_cases := 1, total_results := 0, pass_count := 0,
          fail_count := 0, warning_count := 0, pass_rate := 0 } := by
  decide

/-- Claim C10: the per-case tolerance has no effect on a comparison — the
parameter is never read, so any two tolerance values give identical results —
and every case created by `create_visual_test_case` stores the fixed default
tolerance 0.1 (the method has no override parameter). -/
theorem C10_tolerance_inert :
    (∀ (canny : GrayImg → GrayImg) (orb : GrayImg → Option (List Desc))
        (findContours : GrayImg → List (List Pt))
        (baseline current : Option Img) (t1 t2 : ℚ),
        compare_images canny orb findContours baseline current t1
          = compare_images canny orb findContours baseline current t2) ∧
    (∀ (cid sel ty desc ts : String) (cap : Option String) (tc : VisualTestCase),
        create_visual_test_case cid sel ty desc cap ts = some tc →
        tc.tolerance = 1/10) := by
  constructor
  · intro canny orb findContours baseline current t1 t2
    cases baseline <;> cases current <;> rfl
  · intro cid sel ty desc ts cap tc h
    cases cap with
    | none => exact absurd h (by simp [create_visual_test_case])
    | some p =>
      simp only [create_visual_test_case, Option.some.injEq] at h
      subst h
      rfl

/-- Witness for C10: the tolerance-independence and the stored default
tolerance at concrete inputs. -/
theorem C10_tolerance_inert_witness :
    compare_images (fun g => g) (fun _ => none) (fun _ => []) none none 0
      = compare_images (fun g => g) (fun _ => none) (fun _ => []) none none 1 ∧
    (VisualTestCase.mk "TC1" "#login" "button" "p.png" (1/10) "d" "t").tolerance = 1/10 :=
  ⟨C10_tolerance_inert.1 (fun g => g) (fun _ => none) (fun _ => []) none none 0 1,
   C10_tolerance_inert.2 "TC1" "#login" "button" "d" "t" (some "p.png") _ rfl⟩

/-! ### Characterizations of the four detectors -/

/-- Inversion for the layout detector: it fires exactly above its threshold,
and the returned record is determined by the edge score. -/
theorem detect_layout_changes_eq_some (canny : GrayImg → GrayImg)
    (b c : Img) (d : VisualDifference) :
    detect_layout_changes canny b c = some d ↔
      tolerance_thresholds.layout < layout_score canny b c ∧
      d = { difference_type := "layout"
            confidence := layout_score canny b c
            bounding_box := (0, 0, b.w, b.h)
            description := "Layout changes detected"
            severity := if 3/10 < layout_score canny b c then "high" else "medium"
            suggested_action := "Review layout changes and update baseline if intentional" } := by
  simp only [detect_layout_changes, layout_score]
  split
  · simp_all [eq_comm]
  · simp_all

/-- Inversion for the color detector. -/
theorem detect_color_changes_eq_some (b c : Img) (d : VisualDifference) :
    detect_color_changes b c = some d ↔
      tolerance_thresholds.color < color_diff_score b c ∧
      d = { difference_type := "color"
            confidence := color_diff_score b c
            bounding_box := (0, 0, b.w, b.h)
            description := "Color changes detected"
            severity := if 1/10 < color_diff_score b c then "medium" else "low"
            suggested_action := "Review color scheme changes and update baseline if intentional" } := by
  simp only [detect_color_changes, color_diff_score]
  split
  · simp_all [eq_comm]
  · simp_all

/-- Inversion for the content detector: it fires exactly above its threshold,
with the bounding box of the largest-area contour of the difference image
(full frame when the contour finder returns none). -/
theorem detect_content_changes_eq_some (findContours : GrayImg → List (List Pt))
    (b c : Img) (d : VisualDifference) :
    detect_content_changes findContours b c = some d ↔
      tolerance_thresholds.content < content_score b c ∧
      d = { difference_type := "content"
            confidence := content_score b c
            bounding_box :=
              match findContours (absdiffG (cvtRGB2GRAY b) (cvtRGB2GRAY c)) with
              | [] => (0, 0, b.w, b.h)
              | c0 :: cs => boundingRect (maxByArea c0 cs)
            description := "Content changes detected"
            severity := if 3/10 < content_score b c then "high" else "medium"
            suggested_action := "Review content changes and update baseline if intentional" } := by
  simp only [detect_content_changes, content_score]
  split
  · simp_all [eq_comm]
  · simp_all

/-- Membership in a `zipWith` comes from members of the two lists. -/
theorem mem_zipWith {α β γ : Type} {f : α → β → γ} :
    ∀ {l1 : List α} {l2 : List β} {z : γ}, z ∈ List.zipWith f l1 l2 →
      ∃ x ∈ l1, ∃ y ∈ l2, z = f x y
  | [], _, z => by simp
  | _ :: _, [], z => by simp
  | x :: l1, y :: l2, z => by
    intro hz
    rcases List.mem_cons.mp hz with rfl | hz'
    · exact ⟨x, List.mem_cons_self x _, y, List.mem_cons_self y _, rfl⟩
    · obtain ⟨x', hx', y', hy', rfl⟩ := mem_zipWith hz'
      exact ⟨x', List.mem_cons_of_mem _ hx', y', List.mem_cons_of_mem _ hy', rfl⟩

/-- Shape of any difference returned by the element detector: its type, its
severity, and its confidence, which always lies in (0.2, 1]. -/
theorem detect_element_changes_shape (orb : GrayImg → Option (List Desc))
    (b c : Img) (d : VisualDifference)
    (h : detect_element_changes orb b c = some d) :
    d.difference_type = "element" ∧ (d.severity = "high" ∨ d.severity = "medium") ∧
    tolerance_thresholds.element < d.confidence ∧ d.confidence ≤ 1 := by
  unfold detect_element_changes at h
  dsimp only at h
  rcases h1 : orb (cvtRGB2GRAY b) with _ | des1 <;> rw [h1] at h
  · simp at h
  rcases h2 : orb (cvtRGB2GRAY c) with _ | des2 <;> rw [h2] at h
  · simp at h
  dsimp only at h
  split at h
  · split at h
    · rcases Option.some.inj h with rfl
      refine ⟨rfl, ?_, ?_, ?_⟩
      · dsimp only
        split <;> simp
      · assumption
      · dsimp only
        apply sub_le_self
        norm_num
    · exact absurd h (by simp)
  · split at h
    · rcases Option.some.inj h with rfl
      refine ⟨rfl, ?_, ?_, ?_⟩
      · dsimp only
        split <;> simp
      · assumption
      · dsimp only
        apply sub_le_self
        positivity
    · exact absurd h (by simp)

/-- The mean of a grayscale image is nonnegative. -/
theorem mean_nonneg (g : GrayImg) : 0 ≤ g.mean := by
  unfold GrayImg.mean
  positivity

/-- The mean of an 8-bit grayscale image is at most 255. -/
theorem mean_le_255 (g : GrayImg) (hg : ∀ v ∈ g.pix, v ≤ 255) : g.mean ≤ 255 := by
  unfold GrayImg.mean
  rcases eq_or_ne g.pix.length 0 with h0 | h0
  · rw [h0]
    norm_num
  · rw [div_le_iff₀ (by exact_mod_cast Nat.pos_of_ne_zero h0)]
    have hs : g.pix.sum ≤ g.pix.length * 255 := by
      have := List.sum_le_card_nsmul g.pix 255 hg
      simpa [smul_eq_mul] using this
    calc (g.pix.sum : ℚ) ≤ (g.pix.length * 255 : ℕ) := by exact_mod_cast hs
      _ = 255 * (g.pix.length : ℚ) := by push_cast; ring

/-- Entries of a grayscale absolute difference of 8-bit images are 8-bit. -/
theorem absdiffG_mem_le (a b : GrayImg) (ha : ∀ v ∈ a.pix, v ≤ 255)
    (hb : ∀ v ∈ b.pix, v ≤ 255) : ∀ v ∈ (absdiffG a b).pix, v ≤ 255 := by
  intro v hv
  obtain ⟨x, hx, y, hy, rfl⟩ := mem_zipWith hv
  have h1 := ha x hx
  have h2 := hb y hy
  simp only [Nat.dist]
  omega

/-- The fixed-point RGB luma of an 8-bit pixel is 8-bit. -/
theorem grayOfRGB_le (p : Px) (hp : p.valid) : grayOfRGB p ≤ 255 := by
  obtain ⟨h0, h1, h2⟩ := hp
  unfold grayOfRGB
  have hnum : 4899 * p.c0 + 9617 * p.c1 + 1868 * p.c2 + 8192
      ≤ 4899 * 255 + 9617 * 255 + 1868 * 255 + 8192 := by omega
  calc (4899 * p.c0 + 9617 * p.c1 + 1868 * p.c2 + 8192) / 16384
      ≤ (4899 * 255 + 9617 * 255 + 1868 * 255 + 8192) / 16384 :=
        Nat.div_le_div_right hnum
    _ = 255 := by norm_num

/-- The RGB-to-gray conversion preserves well-formedness. -/
theorem cvtRGB2GRAY_valid (a : Img) (ha : a.valid) : (cvtRGB2GRAY a).valid := by
  refine ⟨by simp [cvtRGB2GRAY, GrayImg.valid, ha.1], ?_⟩
  intro v hv
  simp only [cvtRGB2GRAY, List.mem_map] at hv
  obtain ⟨p, hp, rfl⟩ := hv
  exact grayOfRGB_le p (ha.2 p hp)

/-- The BGR-to-RGB channel swap preserves well-formedness. -/
theorem cvtBGR2RGB_valid (a : Img) (ha : a.valid) : (cvtBGR2RGB a).valid := by
  refine ⟨by simp [cvtBGR2RGB, Img.valid, ha.1], ?_⟩
  intro p hp
  simp only [cvtBGR2RGB, List.mem_map] at hp
  obtain ⟨q, hq, rfl⟩ := hp
  obtain ⟨h0, h1, h2⟩ := ha.2 q hq
  exact ⟨h2, h1, h0⟩

/-- Auxiliary: the types of the collected detector outputs form a sublist of
the detector-order type list, and at most four entries arise. -/
theorem types_sublist_aux (o1 o2 o3 o4 : Option VisualDifference)
    (h1 : ∀ d, o1 = some d → d.difference_type = "layout")
    (h2 : ∀ d, o2 = some d → d.difference_type = "color")
    (h3 : ∀ d, o3 = some d → d.difference_type = "content")
    (h4 : ∀ d, o4 = some d → d.difference_type = "element") :
    List.Sublist ((o1.toList ++ o2.toList ++ o3.toList ++ o4.toList).map
      fun d => d.difference_type) ["layout", "color", "content", "element"] ∧
    (o1.toList ++ o2.toList ++ o3.toList ++ o4.toList).length ≤ 4 := by
  cases o1 <;> cases o2 <;> cases o3 <;> cases o4 <;> simp_all

/-- Claim C9: the differences list is ordered by detector evaluation order —
layout, then color, then content, then element — with each detector
contributing at most one entry, so each difference type occurs at most once
and the list has at most four entries. -/
theorem C9_detector_order (canny : GrayImg → GrayImg)
    (orb : GrayImg → Option (List Desc))
    (findContours : GrayImg → List (List Pt))
    (baseline_img current_img diff_img : Img) :
    List.Sublist
      ((detect_differences canny orb findContours baseline_img current_img diff_img).map
        fun d => d.difference_type)
      ["layout", "color", "content", "element"] ∧
    (detect_differences canny orb findContours baseline_img current_img diff_img).length
      ≤ 4 := by
  unfold detect_differences
  dsimp only
  exact types_sublist_aux _ _ _ _
    (fun d h => (((detect_layout_changes_eq_some _ _ _ _).mp h).2 ▸ rfl))
    (fun d h => (((detect_color_changes_eq_some _ _ _).mp h).2 ▸ rfl))
    (fun d h => (((detect_content_changes_eq_some _ _ _ _).mp h).2 ▸ rfl))
    (fun d h => (detect_element_changes_shape _ _ _ _ h).1)

/-- Claim C6: the content detector fires exactly when the mean absolute
grayscale pixel difference over 255 exceeds 0.15; the returned difference has
severity high above 0.30 and medium otherwise, and its bounding box is the
bounding rectangle of the largest-area contour of the difference image, the
full canonical frame when no contour is found. -/
theorem C6_content_detector (findContours : GrayImg → List (List Pt))
    (baseline current : Img) :
    (content_score baseline current ≤ 3/20 →
      detect_content_changes findContours baseline current = none) ∧
    (3/20 < content_score baseline current →
      ∃ d, detect_content_changes findContours baseline current = some d ∧
        d.difference_type = "content" ∧
        d.confidence = content_score baseline current ∧
        d.severity = (if 3/10 < content_score baseline current then "high" else "medium") ∧
        d.bounding_box =
          (match findContours (absdiffG (cvtRGB2GRAY baseline) (cvtRGB2GRAY current)) with
           | [] => (0, 0, baseline.w, baseline.h)
           | c0 :: cs => boundingRect (maxByArea c0 cs))) := by
  constructor
  · intro hle
    rcases hd : detect_content_changes findContours baseline current with _ | d
    · rfl
    · rcases (detect_content_changes_eq_some _ _ _ _).mp hd with ⟨hgt, _⟩
      exact absurd hgt (not_lt.mpr hle)
  · intro hgt
    refine ⟨_, (detect_content_changes_eq_some _ _ _ _).mpr ⟨hgt, rfl⟩, rfl, rfl, rfl, rfl⟩

/-- Witness for C6: a full-intensity 1x1 difference fires the content
detector with severity high and the bounding rectangle of the supplied
contour, while identical images stay below the threshold and yield no
difference. -/
theorem C6_content_detector_witness :
    (∃ d, detect_content_changes (fun _ => [[⟨2, 3⟩, ⟨5, 3⟩, ⟨5, 9⟩, ⟨2, 9⟩]])
        ⟨1, 1, [⟨0, 0, 0⟩]⟩ ⟨1, 1, [⟨255, 255, 255⟩]⟩ = some d ∧
        d.severity = "high" ∧ d.bounding_box = (2, 3, 4, 7) ∧ d.confidence = 1) ∧
    detect_content_changes (fun _ => []) ⟨1, 1, [⟨0, 0, 0⟩]⟩ ⟨1, 1, [⟨0, 0, 0⟩]⟩ = none := by
  have hsc : content_score ⟨1, 1, [⟨0, 0, 0⟩]⟩ ⟨1, 1, [⟨255, 255, 255⟩]⟩ = 1 := by
    unfold content_score
    rw [show absdiffG (cvtRGB2GRAY ⟨1, 1, [⟨0, 0, 0⟩]⟩) (cvtRGB2GRAY ⟨1, 1, [⟨255, 255, 255⟩]⟩)
        = ⟨1, 1, [255]⟩ from by decide]
    norm_num [GrayImg.mean, List.sum_cons, List.sum_nil]
  have hsc0 : content_score ⟨1, 1, [⟨0, 0, 0⟩]⟩ ⟨1, 1, [⟨0, 0, 0⟩]⟩ = 0 := by
    unfold content_score
    rw [show absdiffG (cvtRGB2GRAY ⟨1, 1, [⟨0, 0, 0⟩]⟩) (cvtRGB2GRAY ⟨1, 1, [⟨0, 0, 0⟩]⟩)
        = ⟨1, 1, [0]⟩ from by decide]
    norm_num [GrayImg.mean, List.sum_cons, List.sum_nil]
  constructor
  · obtain ⟨d, hd, htype, hconf, hsev, hbox⟩ :=
      (C6_content_detector (fun _ => [[⟨2, 3⟩, ⟨5, 3⟩, ⟨5, 9⟩, ⟨2, 9⟩]])
        ⟨1, 1, [⟨0, 0, 0⟩]⟩ ⟨1, 1, [⟨255, 255, 255⟩]⟩).2 (by rw [hsc]; norm_num)
    refine ⟨d, hd, ?_, ?_, ?_⟩
    · rw [hsev, hsc]
      norm_num
    · rw [hbox]
      decide
    · rw [hconf, hsc]
  · exact (C6_content_detector (fun _ => []) ⟨1, 1, [⟨0, 0, 0⟩]⟩ ⟨1, 1, [⟨0, 0, 0⟩]⟩).1
      (by rw [hsc0]; norm_num)

/-- The histogram correlation of a 1x1 black frame against a 1x1 white frame:
the two one-hot histograms are anti-correlated, giving exactly -1/511. -/
theorem compareHistCorrel_black_white :
    compareHistCorrel ⟨1, 1, [⟨0, 0, 0⟩]⟩ ⟨1, 1, [⟨255, 255, 255⟩]⟩ = -(1/511) := by
  have e1 : histS1 ⟨1, 1, [⟨0, 0, 0⟩]⟩ = 1 := by decide
  have e2 : histS1 ⟨1, 1, [⟨255, 255, 255⟩]⟩ = 1 := by decide
  have e11 : histS11 ⟨1, 1, [⟨0, 0, 0⟩]⟩ = 1 := by decide
  have e22 : histS11 ⟨1, 1, [⟨255, 255, 255⟩]⟩ = 1 := by decide
  have e12 : histS12 ⟨1, 1, [⟨0, 0, 0⟩]⟩ ⟨1, 1, [⟨255, 255, 255⟩]⟩ = 0 := by decide
  unfold compareHistCorrel
  rw [e1, e2, e11, e22, e12]
  rw [if_neg (by push_cast; norm_num)]
  rw [show (((1 : ℕ) : ℚ) - ((1 : ℕ) : ℚ) ^ 2 / 512) * (((1 : ℕ) : ℚ) - ((1 : ℕ) : ℚ) ^ 2 / 512)
      = (511/512) * (511/512) from by push_cast; norm_num]
  rw [Rat.sqrt_eq, abs_of_pos (by norm_num : (0:ℚ) < 511/512)]
  push_cast
  norm_num

/-- Counterexample to claim C7: comparing a 1x1 black frame against a 1x1
white frame, the color detector fires (1 - correlation = 512/511 exceeds its
0.05 threshold) and reports confidence 512/511, which is strictly greater
than 1: the correlation of two anti-correlated histograms is negative, so
`1 - correlation` is not confined to [0, 1]. -/
theorem C7_counterexample :
    (detect_color_changes ⟨1, 1, [⟨0, 0, 0⟩]⟩ ⟨1, 1, [⟨255, 255, 255⟩]⟩).map
      (fun d => d.confidence) = some (512/511) ∧ (1 : ℚ) < 512/511 := by
  have hscore : color_diff_score ⟨1, 1, [⟨0, 0, 0⟩]⟩ ⟨1, 1, [⟨255, 255, 255⟩]⟩ = 512/511 := by
    unfold color_diff_score
    rw [compareHistCorrel_black_white]
    norm_num
  have hfire : tolerance_thresholds.color <
      color_diff_score ⟨1, 1, [⟨0, 0, 0⟩]⟩ ⟨1, 1, [⟨255, 255, 255⟩]⟩ := by
    rw [hscore]
    norm_num [tolerance_thresholds]
  have hd := (detect_color_changes_eq_some ⟨1, 1, [⟨0, 0, 0⟩]⟩
    ⟨1, 1, [⟨255, 255, 255⟩]⟩ _).mpr ⟨hfire, rfl⟩
  rw [hd]
  refine ⟨?_, by norm_num⟩
  simp only [Option.map_some']
  rw [hscore]

/-- Claim C7 as amended: every difference returned by any detector has
strictly positive confidence (each detector fires only above its positive
threshold), and the layout, content and element confidences never exceed 1;
the color confidence is exempt from the upper bound, since 1 - correlation
can exceed 1 (see the counterexample). -/
theorem C7_confidence_amended (canny : GrayImg → GrayImg)
    (orb : GrayImg → Option (List Desc))
    (findContours : GrayImg → List (List Pt))
    (b c dimg : Img) (hb : b.valid) (hc : c.valid)
    (hcanny : ∀ g : GrayImg, g.valid → (canny g).valid) :
    (detect_differences canny orb findContours b c dimg).Forall
      (fun d => 0 < d.confidence ∧ (d.difference_type = "color" ∨ d.confidence ≤ 1)) := by
  rw [List.forall_iff_forall_mem]
  intro d hd
  unfold detect_differences at hd
  dsimp only at hd
  simp only [List.mem_append, Option.mem_toList, Option.mem_def] at hd
  rcases hd with ((hL | hC) | hCt) | hE
  · rcases (detect_layout_changes_eq_some _ _ _ _).mp hL with ⟨hgt, rfl⟩
    simp only [tolerance_thresholds] at hgt
    constructor
    · dsimp only
      linarith
    · right
      dsimp only
      unfold layout_score
      rw [div_le_one (by norm_num)]
      exact mean_le_255 _ (absdiffG_mem_le _ _
        (hcanny _ (cvtRGB2GRAY_valid _ (cvtBGR2RGB_valid b hb))).2
        (hcanny _ (cvtRGB2GRAY_valid _ (cvtBGR2RGB_valid c hc))).2)
  · rcases (detect_color_changes_eq_some _ _ _).mp hC with ⟨hgt, rfl⟩
    simp only [tolerance_thresholds] at hgt
    exact ⟨by dsimp only; linarith, Or.inl rfl⟩
  · rcases (detect_content_changes_eq_some _ _ _ _).mp hCt with ⟨hgt, rfl⟩
    simp only [tolerance_thresholds] at hgt
    constructor
    · dsimp only
      linarith
    · right
      dsimp only
      unfold content_score
      rw [div_le_one (by norm_num)]
      exact mean_le_255 _ (absdiffG_mem_le _ _
        (cvtRGB2GRAY_valid _ (cvtBGR2RGB_valid b hb)).2
        (cvtRGB2GRAY_valid _ (cvtBGR2RGB_valid c hc)).2)
  · obtain ⟨_, _, hgt, hle⟩ := detect_element_changes_shape _ _ _ _ hE
    simp only [tolerance_thresholds] at hgt
    exact ⟨by linarith, Or.inr hle⟩

/-- Witness for C7's amended theorem: all confidences of the differences
found between a 1x1 black frame and a 1x1 white frame obey the bounds. -/
theorem C7_confidence_amended_witness :
    (detect_differences (fun g => g) (fun _ => none) (fun _ => [])
      ⟨1, 1, [⟨0, 0, 0⟩]⟩ ⟨1, 1, [⟨255, 255, 255⟩]⟩ ⟨1, 1, [⟨255, 255, 255⟩]⟩).Forall
      (fun d => 0 < d.confidence ∧ (d.difference_type = "color" ∨ d.confidence ≤ 1)) :=
  C7_confidence_amended (fun g => g) (fun _ => none) (fun _ => []) _ _ _
    ⟨rfl, fun p hp => by
      rcases List.mem_singleton.mp hp with rfl
      exact ⟨by norm_num, by norm_num, by norm_num⟩⟩
    ⟨rfl, fun p hp => by
      rcases List.mem_singleton.mp hp with rfl
      exact ⟨by norm_num, by norm_num, by norm_num⟩⟩
    (fun g hg => hg)

/-- No difference collected by the pipeline carries severity `critical`:
each detector only ever assigns high, medium or low. -/
theorem detect_differences_no_critical (canny : GrayImg → GrayImg)
    (orb : GrayImg → Option (List Desc))
    (findContours : GrayImg → List (List Pt)) (b c dimg : Img) :
    (detect_differences canny orb findContours b c dimg).Forall
      (fun d => d.severity ≠ "critical") := by
  rw [List.forall_iff_forall_mem]
  intro d hd
  unfold detect_differences at hd
  dsimp only at hd
  simp only [List.mem_append, Option.mem_toList, Option.mem_def] at hd
  rcases hd with ((hL | hC) | hCt) | hE
  · rcases (detect_layout_changes_eq_some _ _ _ _).mp hL with ⟨_, rfl⟩
    dsimp only
    split <;> decide
  · rcases (detect_color_changes_eq_some _ _ _).mp hC with ⟨_, rfl⟩
    dsimp only
    split <;> decide
  · rcases (detect_content_changes_eq_some _ _ _ _).mp hCt with ⟨_, rfl⟩
    dsimp only
    split <;> decide
  · rcases (detect_element_changes_shape _ _ _ _ hE).2.1 with h | h <;> simp [h]

/-- The verdict on a difference list free of `critical` severities, at a
score in [0.05, 0.15), is `warning`. -/
theorem status_warning_of_no_critical (s : ℚ) (ds : List VisualDifference)
    (hds : ds.Forall (fun d => d.severity ≠ "critical"))
    (h1 : 5/100 ≤ s) (h2 : s < 15/100) :
    determine_test_status s ds = "warning" := by
  unfold determine_test_status
  rw [if_neg (not_lt.mpr h1), if_pos h2, if_pos]
  rw [List.isEmpty_iff, List.filter_eq_nil_iff]
  rw [List.forall_iff_forall_mem] at hds
  intro d hd
  simpa using hds d hd

/-- Claim C8: no detector assigns severity `critical`, so the fail-on-critical
branch of verdict rule 2 is unreachable: whenever the pipeline's difference
score lies in [0.05, 0.15), the status is `warning`. -/
theorem C8_critical_unreachable (canny : GrayImg → GrayImg)
    (orb : GrayImg → Option (List Desc))
    (findContours : GrayImg → List (List Pt))
    (baseline current : Option Img) (t : ℚ) :
    ((compare_images canny orb findContours baseline current t).2).Forall
      (fun d => d.severity ≠ "critical") ∧
    (5/100 ≤ (compare_images canny orb findContours baseline current t).1 →
      (compare_images canny orb findContours baseline current t).1 < 15/100 →
      determine_test_status (compare_images canny orb findContours baseline current t).1
        (compare_images canny orb findContours baseline current t).2 = "warning") := by
  have hA : ((compare_images canny orb findContours baseline current t).2).Forall
      (fun d => d.severity ≠ "critical") := by
    rcases baseline with _ | b
    · simp [compare_images, List.Forall]
    rcases current with _ | c
    · simp [compare_images, List.Forall]
    exact detect_differences_no_critical canny orb findContours b c (absdiffC b c)
  exact ⟨hA, fun h1 h2 => status_warning_of_no_critical _ _ hA h1 h2⟩

/-- Witness for C8: a uniform 1x1 difference of intensity 25 gives an
aggregate score of 25/255, inside [0.05, 0.15), and the verdict is
`warning`. -/
theorem C8_critical_unreachable_witness :
    determine_test_status
      (compare_images (fun g => g) (fun _ => none) (fun _ => [])
        (some ⟨1, 1, [⟨0, 0, 0⟩]⟩) (some ⟨1, 1, [⟨25, 25, 25⟩]⟩) (1/10)).1
      (compare_images (fun g => g) (fun _ => none) (fun _ => [])
        (some ⟨1, 1, [⟨0, 0, 0⟩]⟩) (some ⟨1, 1, [⟨25, 25, 25⟩]⟩) (1/10)).2 = "warning" := by
  have hs : (compare_images (fun g => g) (fun _ => none) (fun _ => [])
      (some ⟨1, 1, [⟨0, 0, 0⟩]⟩) (some ⟨1, 1, [⟨25, 25, 25⟩]⟩) (1/10)).1 = 25/255 := by
    show (cvtBGR2GRAY (absdiffC ⟨1, 1, [⟨0, 0, 0⟩]⟩ ⟨1, 1, [⟨25, 25, 25⟩]⟩)).mean / 255
      = 25/255
    rw [show cvtBGR2GRAY (absdiffC ⟨1, 1, [⟨0, 0, 0⟩]⟩ ⟨1, 1, [⟨25, 25, 25⟩]⟩)
        = ⟨1, 1, [25]⟩ from by decide]
    norm_num [GrayImg.mean, List.sum_cons, List.sum_nil]
  exact (C8_critical_unreachable (fun g => g) (fun _ => none) (fun _ => [])
      (some ⟨1, 1, [⟨0, 0, 0⟩]⟩) (some ⟨1, 1, [⟨25, 25, 25⟩]⟩) (1/10)).2
    (by rw [hs]; norm_num) (by rw [hs]; norm_num)

/-! ### Identity comparison: every detector is silent on equal inputs -/

/-- Pointwise distances of a list with itself sum to zero. -/
theorem sum_zipWith_dist_self : ∀ l : List ℕ, (List.zipWith Nat.dist l l).sum = 0
  | [] => rfl
  | x :: l => by
    simp only [List.zipWith_cons_cons, List.sum_cons, Nat.dist_self, Nat.zero_add]
    exact sum_zipWith_dist_self l

/-- The grayscale absolute difference of an image with itself has mean 0. -/
theorem absdiffG_self_mean (g : GrayImg) : (absdiffG g g).mean = 0 := by
  unfold absdiffG GrayImg.mean
  rw [sum_zipWith_dist_self]
  norm_num

/-- The gray-converted color absolute difference of an image with itself has
mean 0. -/
theorem gray_absdiffC_self_mean (a : Img) : (cvtBGR2GRAY (absdiffC a a)).mean = 0 := by
  unfold cvtBGR2GRAY absdiffC GrayImg.mean
  rw [List.zipWith_same, List.map_map]
  have hz : ∀ l : List Px,
      (l.map (grayOfBGR ∘ fun p : Px =>
        (⟨Nat.dist p.c0 p.c0, Nat.dist p.c1 p.c1, Nat.dist p.c2 p.c2⟩ : Px))).sum = 0 := by
    intro l
    apply List.sum_eq_zero
    intro x hx
    rcases List.mem_map.mp hx with ⟨p, hp, rfl⟩
    simp [Function.comp, Nat.dist_self, grayOfBGR]
  rw [hz]
  norm_num

/-- The layout detector is silent on identical inputs. -/
theorem detect_layout_changes_self (canny : GrayImg → GrayImg) (r : Img) :
    detect_layout_changes canny r r = none := by
  unfold detect_layout_changes
  rw [if_neg]
  rw [absdiffG_self_mean]
  norm_num [tolerance_thresholds]

/-- The content detector is silent on identical inputs. -/
theorem detect_content_changes_self (findContours : GrayImg → List (List Pt)) (r : Img) :
    detect_content_changes findContours r r = none := by
  unfold detect_content_changes
  rw [if_neg]
  rw [absdiffG_self_mean]
  norm_num [tolerance_thresholds]

/-- Cauchy-Schwarz for the 512-bin histogram: the squared total is at most
512 times the sum of squares. -/
theorem hist_sq_le (a : Img) : ((histS1 a : ℚ)) ^ 2 ≤ 512 * (histS11 a : ℚ) := by
  have hcs := sq_sum_le_card_mul_sum_sq (s := bins) (f := fun t => (hist a t : ℚ))
  have hcard : bins.card = 512 := by decide
  rw [hcard] at hcs
  have h1 : (histS1 a : ℚ) = ∑ t ∈ bins, (hist a t : ℚ) := by
    unfold histS1
    push_cast
    rfl
  have h11 : (histS11 a : ℚ) = ∑ t ∈ bins, (hist a t : ℚ) ^ 2 := by
    unfold histS11
    push_cast
    rfl
  rw [h1, h11]
  exact_mod_cast hcs

/-- The histogram correlation of an image with itself is 1 (also through the
vanishing-denominator guard). -/
theorem compareHistCorrel_self (a : Img) : compareHistCorrel a a = 1 := by
  unfold compareHistCorrel
  have h12 : histS12 a a = histS11 a :=
    Finset.sum_congr rfl fun t _ => (pow_two (hist a t)).symm
  rw [h12]
  have hnum : ((histS11 a : ℚ) - (histS1 a : ℚ) * (histS1 a : ℚ) / 512)
      = ((histS11 a : ℚ) - (histS1 a : ℚ) ^ 2 / 512) := by ring
  have hX : 0 ≤ (histS11 a : ℚ) - (histS1 a : ℚ) ^ 2 / 512 := by
    have := hist_sq_le a
    linarith
  by_cases h0 : ((histS11 a : ℚ) - (histS1 a : ℚ) ^ 2 / 512) = 0
  · rw [if_pos (by rw [h0]; ring)]
  · rw [if_neg (mul_ne_zero h0 h0)]
    rw [hnum, Rat.sqrt_eq, abs_of_nonneg hX]
    exact div_self h0

/-- The color detector is silent on identical inputs. -/
theorem detect_color_changes_self (r : Img) : detect_color_changes r r = none := by
  unfold detect_color_changes
  rw [if_neg]
  rw [compareHistCorrel_self]
  norm_num [tolerance_thresholds]

/-- The Hamming distance of a descriptor to itself is 0. -/
theorem hamming_self : ∀ d : Desc, hamming d d = 0
  | [] => rfl
  | x :: d => by
    simp only [hamming, List.zipWith_cons_cons, bne_self_eq_false, List.filter_cons]
    have := hamming_self d
    simp only [hamming] at this
    simpa using this

/-- A best-so-far at distance 0 is never displaced. -/
theorem bestMatchAux_zero_frozen (d : Desc) :
    ∀ (es : List Desc) (i bi : ℕ), bestMatchAux d es i (some (bi, 0)) = some (bi, 0)
  | [], _, _ => rfl
  | e :: es, i, bi => by
    simp only [bestMatchAux]
    rw [if_neg (Nat.not_lt_zero _)]
    exact bestMatchAux_zero_frozen d es (i + 1) bi

/-- The reported distance never exceeds the accumulator's distance. -/
theorem bestMatchAux_le_acc (d : Desc) :
    ∀ (es : List Desc) (i bi bd : ℕ) (r : ℕ × ℕ),
      bestMatchAux d es i (some (bi, bd)) = some r → r.2 ≤ bd
  | [], i, bi, bd, r => by
    intro h
    cases Option.some.inj h
    exact le_refl _
  | e :: es, i, bi, bd, r => by
    intro h
    simp only [bestMatchAux] at h
    split at h
    · exact le_of_lt (lt_of_le_of_lt (bestMatchAux_le_acc d es (i + 1) i (hamming d e) r h)
        (by assumption))
    · exact bestMatchAux_le_acc d es (i + 1) bi bd r h

/-- The reported distance never exceeds the distance to any scanned
descriptor. -/
theorem bestMatchAux_le_mem (d : Desc) :
    ∀ (es : List Desc) (i : ℕ) (acc : Option (ℕ × ℕ)) (e : Desc) (r : ℕ × ℕ),
      e ∈ es → bestMatchAux d es i acc = some r → r.2 ≤ hamming d e
  | [], _, _, _, _ => by
    intro h
    exact absurd h (List.not_mem_nil _)
  | e' :: es, i, acc, e, r => by
    intro hmem h
    rcases List.mem_cons.mp hmem with rfl | hmem'
    · simp only [bestMatchAux] at h
      rcases acc with _ | ⟨bi, bd⟩
      · rcases List.eq_nil_or_concat es with rfl | _
        · cases Option.some.inj h
          exact le_refl _
        · exact bestMatchAux_le_acc d es (i + 1) i (hamming d e) r h
      · dsimp only at h
        split at h
        · exact bestMatchAux_le_acc d es (i + 1) i (hamming d e) r h
        · exact le_trans (bestMatchAux_le_acc d es (i + 1) bi bd r h) (not_lt.mp (by assumption))
    · exact bestMatchAux_le_mem d es (i + 1) _ e r hmem' h

/-- Searching a list whose head is the query itself reports the head at
distance 0. -/
theorem bestMatch_cons_self (d : Desc) (ds : List Desc) :
    bestMatch d (d :: ds) = some (0, 0) := by
  unfold bestMatch
  simp only [bestMatchAux, hamming_self]
  exact bestMatchAux_zero_frozen d ds 1 0

/-- Every cross-checked match of a descriptor list against itself has
distance 0. -/
theorem bfMatch_self_dist_zero (ds : List Desc) :
    ∀ m ∈ bfMatch ds ds, m.2.2 = 0 := by
  intro m hm
  unfold bfMatch at hm
  rcases List.mem_filterMap.mp hm with ⟨p, hp, hf⟩
  have hpmem : p.2 ∈ ds := by
    rw [List.mem_enum_iff_get?] at hp
    exact List.get?_mem hp
  rcases hb : bestMatch p.2 ds with _ | ⟨j, dist⟩
  · rw [hb] at hf
    simp at hf
  rw [hb] at hf
  dsimp only at hf
  rcases hg : ds.get? j with _ | dj
  · rw [hg] at hf
    simp at hf
  rw [hg] at hf
  dsimp only at hf
  rcases hb2 : bestMatch dj ds with _ | ⟨i2, d2⟩
  · rw [hb2] at hf
    simp at hf
  rw [hb2] at hf
  dsimp only at hf
  split at hf
  · cases Option.some.inj hf
    have hle : dist ≤ hamming p.2 p.2 :=
      bestMatchAux_le_mem p.2 ds 0 none p.2 (j, dist) hpmem hb
    rw [hamming_self] at hle
    exact Nat.le_zero.mp hle
  · exact absurd hf (by simp)

/-- Matching a nonempty descriptor list against itself produces at least one
match. -/
theorem bfMatch_self_ne_nil (ds : List Desc) (h : ds ≠ []) : bfMatch ds ds ≠ [] := by
  obtain ⟨d0, rest, rfl⟩ := List.exists_cons_of_ne_nil h
  unfold bfMatch
  rw [List.enum_cons, List.filterMap_cons]
  rw [bestMatch_cons_self d0 rest]
  dsimp only
  rw [show (d0 :: rest).get? 0 = some d0 from rfl]
  dsimp only
  rw [bestMatch_cons_self d0 rest]
  simp

/-- The element detector is silent on identical inputs, provided the feature
extractor never reports an empty descriptor list as `some []` (OpenCV returns
`None` when it finds no descriptors): every self-match has distance 0, so the
good-match fraction is 1 and the score 0. -/
theorem detect_element_changes_self (orb : GrayImg → Option (List Desc)) (r : Img)
    (horb : ∀ g, orb g ≠ some ([] : List Desc)) :
    detect_element_changes orb r r = none := by
  unfold detect_element_changes
  dsimp only
  rcases ho : orb (cvtRGB2GRAY r) with _ | ds
  · rfl
  · dsimp only
    have hne : ds ≠ [] := fun hh => horb _ (by rw [hh] at ho; exact ho)
    rw [if_neg]
    have hperm := List.mergeSort_perm (bfMatch ds ds) (fun m1 m2 => m1.2.2 ≤ m2.2.2)
    set M := (bfMatch ds ds).mergeSort (fun m1 m2 => m1.2.2 ≤ m2.2.2) with hM
    have hMne : M ≠ [] := by
      intro h0
      exact bfMatch_self_ne_nil ds hne (List.Perm.eq_nil (h0 ▸ hperm).symm)
    have hall : ∀ x ∈ M, x.2.2 = 0 := fun x hx => bfMatch_self_dist_zero ds x (hperm.subset hx)
    have hfil : M.filter (fun m => m.2.2 < 50) = M :=
      List.filter_eq_self.mpr (fun a ha => by simp [hall a ha])
    have hisE : M.isEmpty = false := by simp [List.isEmpty_iff, hMne]
    rw [hisE]
    simp only [Bool.false_eq_true, if_false]
    rw [hfil]
    rw [div_self (Nat.cast_ne_zero.mpr (fun hl => hMne (List.length_eq_zero.mp hl)))]
    norm_num [tolerance_thresholds]

/-- Claim C4: comparing a decodable image against a byte-identical copy of
itself yields difference score 0, an empty difference list (no detector
fires), and verdict `pass`.  The hypothesis on the feature extractor states
that it never returns an empty descriptor list as `some []` (OpenCV's
`detectAndCompute` returns `None` in that case). -/
theorem C4_identity (canny : GrayImg → GrayImg)
    (orb : GrayImg → Option (List Desc))
    (findContours : GrayImg → List (List Pt)) (img : Img) (t : ℚ)
    (horb : ∀ g, orb g ≠ some ([] : List Desc)) :
    compare_images canny orb findContours (some img) (some img) t = (0, []) ∧
    determine_test_status
      (compare_images canny orb findContours (some img) (some img) t).1
      (compare_images canny orb findContours (some img) (some img) t).2 = "pass" := by
  have hfst : (compare_images canny orb findContours (some img) (some img) t).1 = 0 := by
    show (cvtBGR2GRAY (absdiffC img img)).mean / 255 = 0
    rw [gray_absdiffC_self_mean]
    norm_num
  have hsnd : (compare_images canny orb findContours (some img) (some img) t).2 = [] := by
    show detect_differences canny orb findContours img img (absdiffC img img) = []
    unfold detect_differences
    dsimp only
    rw [detect_layout_changes_self, detect_color_changes_self, detect_content_changes_self,
      detect_element_changes_self orb (cvtBGR2RGB img) horb]
    rfl
  refine ⟨?_, ?_⟩
  · exact Prod.ext hfst hsnd
  · rw [hfst, hsnd]
    norm_num [determine_test_status]

/-- Witness for C4: the identity comparison of a concrete 1x1 image. -/
theorem C4_identity_witness :
    compare_images (fun g => g) (fun _ => none) (fun _ => [])
      (some ⟨1, 1, [⟨10, 20, 30⟩]⟩) (some ⟨1, 1, [⟨10, 20, 30⟩]⟩) (1/10) = (0, []) ∧
    determine_test_status
      (compare_images (fun g => g) (fun _ => none) (fun _ => [])
        (some ⟨1, 1, [⟨10, 20, 30⟩]⟩) (some ⟨1, 1, [⟨10, 20, 30⟩]⟩) (1/10)).1
      (compare_images (fun g => g) (fun _ => none) (fun _ => [])
        (some ⟨1, 1, [⟨10, 20, 30⟩]⟩) (some ⟨1, 1, [⟨10, 20, 30⟩]⟩) (1/10)).2 = "pass" :=
  C4_identity (fun g => g) (fun _ => none) (fun _ => []) ⟨1, 1, [⟨10, 20, 30⟩]⟩ (1/10)
    (fun _ h => Option.noConfusion h)
